import Mathlib

/-!
# Verification of the doc2talk retrieval core (`src/doc2talk/docgraph.py`)

Shallow embedding of the knowledge-graph builder, the BM25 scorers, the
query pipeline and the binary index codec, together with theorems settling
the frozen claims about them.

Conventions of the embedding:

* Python `dict`s are insertion-ordered association lists (`PyDict`); update
  of an existing key replaces the value in place, preserving position, which
  matches CPython dict semantics.
* Python errors (`ZeroDivisionError`, `ValueError` from `max()` on an empty
  sequence, `KeyError`, `struct.error`, codec failures) are modelled with
  `Except PyErr`.
* Strings are modelled over their character lists; `str.lower` and the
  regex `\b\w+\b` are modelled for the ASCII range.
* `math.log` is `Real.log`; BM25 scores live in `ℝ`.
* The sha256 content hash is an abstract parameter `hkey : String → String`
  of graph construction.
* The msgpack and zstandard codecs are external collaborators; they are
  parameters of `persist`/`load`, constrained only where a claim needs
  their round-trip contract.
-/

namespace Doc2Talk

/-! ## Python dictionaries as insertion-ordered association lists -/

/-- A Python `dict`: an association list in key-insertion order. -/
abbrev PyDict (K V : Type) := List (K × V)

/-- `d[k]` lookup returning `none` when the key is absent. -/
def dget {K V : Type} [DecidableEq K] (d : PyDict K V) (k : K) : Option V :=
  match d with
  | [] => none
  | (k', v) :: rest => if k = k' then some v else dget rest k

/-- `d[k] = v`: replace in place when the key is present, append otherwise
(CPython dict assignment semantics). -/
def dput {K V : Type} [DecidableEq K] (d : PyDict K V) (k : K) (v : V) : PyDict K V :=
  match d with
  | [] => [(k, v)]
  | (k', v') :: rest => if k = k' then (k', v) :: rest else (k', v') :: dput rest k v

/-- `defaultdict(float)`-style `d[k] += x`. -/
def dincr {K : Type} [DecidableEq K] (d : PyDict K ℝ) (k : K) (x : ℝ) : PyDict K ℝ :=
  match d with
  | [] => [(k, x)]
  | (k', v') :: rest => if k = k' then (k', v' + x) :: rest else (k', v') :: dincr rest k x

/-- `defaultdict(int)`-style `d[k] += n`. -/
def dincrNat {K : Type} [DecidableEq K] (d : PyDict K ℕ) (k : K) (n : ℕ) : PyDict K ℕ :=
  match d with
  | [] => [(k, n)]
  | (k', v') :: rest => if k = k' then (k', v' + n) :: rest else (k', v') :: dincrNat rest k n

/-- `defaultdict(list)`-style `d[k].append(v)`. -/
def dappend {K V : Type} [DecidableEq K] (d : PyDict K (List V)) (k : K) (v : V) :
    PyDict K (List V) :=
  match d with
  | [] => [(k, [v])]
  | (k', vs) :: rest => if k = k' then (k', vs ++ [v]) :: rest else (k', vs) :: dappend rest k v

/-! ## Strings: `str.lower`, `\w`, whitespace, `str.count`, `str.strip` -/

/-- `str.lower` on one character (ASCII range of CPython `str.lower`). -/
def pyLowerChar (c : Char) : Char :=
  if 'A' ≤ c ∧ c ≤ 'Z' then Char.ofNat (c.toNat + 32) else c

/-- `text.lower()`. -/
def pyLower (s : String) : String :=
  String.mk (s.toList.map pyLowerChar)

/-- The regex word-character class `\w` (ASCII): `[a-zA-Z0-9_]`. -/
def isWordChar (c : Char) : Bool :=
  ('a' ≤ c && c ≤ 'z') || ('A' ≤ c && c ≤ 'Z') || ('0' ≤ c && c ≤ '9') || c == '_'

/-- Python `str.split()` whitespace class (ASCII). -/
def pyIsSpace (c : Char) : Bool :=
  c == ' ' || c == '\t' || c == '\n' || c == '\r' || c == '\x0c' || c == '\x0b'

/-- Maximal runs of characters satisfying `p`, in order of occurrence.
This is the scanning behaviour of `re.findall`: skip to the next match,
take the greedy maximal run, continue after it. -/
def runsOf (p : Char → Bool) (l : List Char) : List (List Char) :=
  match l with
  | [] => []
  | c :: cs =>
    if p c then (c :: cs.takeWhile p) :: runsOf p (cs.dropWhile p)
    else runsOf p cs
termination_by l.length
decreasing_by
  · simp only [List.length_cons]
    exact Nat.lt_succ_of_le (List.dropWhile_sublist _).length_le
  · simp

/-- Single left-to-right scan collecting maximal `p`-runs; `cur` holds the
reversed run currently being read. This is how the regex engine emits
`findall` matches: characters are consumed once, runs are closed at the
first failing character. -/
def runsAcc (p : Char → Bool) (cur : List Char) : List Char → List (List Char)
  | [] => if cur = [] then [] else [cur.reverse]
  | c :: cs =>
    if p c then runsAcc p (c :: cur) cs
    else if cur = [] then runsAcc p [] cs
    else cur.reverse :: runsAcc p [] cs

/-- `KnowledgeGraph.tokenize`: `re.findall(r'\b\w+\b', text.lower())`.
On a `\w+` maximal run both `\b` boundaries hold automatically, so the
matches are exactly the maximal `\w` runs of the lowercased text. -/
def tokenize (s : String) : List String :=
  (runsAcc isWordChar [] (pyLower s).toList).map (fun cs => String.mk cs)

/-- `len(s.split())`: the number of maximal non-whitespace runs. -/
def wsLen (s : String) : ℕ :=
  (runsAcc (fun c => !pyIsSpace c) [] s.toList).length

/-- `p` is a leading segment of `s`. -/
def leadsWith : List Char → List Char → Bool
  | [], _ => true
  | _ :: _, [] => false
  | a :: as, b :: bs => a == b && leadsWith as bs

/-- Non-overlapping occurrence count of a nonempty pattern, scanning left
to right; `fuel` bounds the scan (structural recursion; callers supply
`fuel = s.length`, enough since each step consumes at least one char). -/
def countSubGo (p : List Char) : ℕ → List Char → ℕ
  | _, [] => 0
  | 0, _ :: _ => 0
  | fuel + 1, c :: cs =>
    if leadsWith p (c :: cs) then 1 + countSubGo p fuel ((c :: cs).drop p.length)
    else countSubGo p fuel cs

/-- Python `s.count(p)` (`str.count`); an empty pattern counts `len(s) + 1`,
a nonempty pattern counts non-overlapping occurrences left to right. -/
def countSub (s p : List Char) : ℕ :=
  if p = [] then s.length + 1 else countSubGo p s.length s

/-- Python `str.strip()`: drop ASCII whitespace at both ends. -/
def pyStrip (s : String) : String :=
  String.mk (((s.toList.dropWhile pyIsSpace).reverse.dropWhile pyIsSpace).reverse)

/-- `pathlib.Path(p).name`: the final path component. -/
def pathName (p : String) : String :=
  String.mk ((p.toList.reverse.takeWhile (fun c => c ≠ '/')).reverse)

/-! ## Claim C4: spec-side tokenizer

Written independently of `tokenize`: maximal runs are extracted by
`takeWhile`/`dropWhile` jumps over the lowered characters, with the claim's
character class `[A-Za-z0-9_]`. -/

/-- The claim's character class `[A-Za-z0-9_]`, written in the claim's order. -/
def specWordChar (c : Char) : Bool :=
  ('A' ≤ c && c ≤ 'Z') || ('a' ≤ c && c ≤ 'z') || ('0' ≤ c && c ≤ '9') || c == '_'

/-- Spec-side tokenizer: maximal `[A-Za-z0-9_]` runs of the lowercased
string, in order of occurrence. -/
def specTokensC4 (s : String) : List String :=
  (runsOf specWordChar (pyLower s).toList).map (fun cs => String.mk cs)

/-! ## Data model: chunk metadata, nodes, `KnowledgeGraph` -/

/-- Chunk metadata: the `meta` dict attached to a node. Keys that a given
chunk kind does not carry are `none` (`dict.get` misses). -/
structure Meta where
  mtype : String                 -- `meta['type']`: "py" or "md"
  node_type : String             -- "class" / "function" / "section"
  name : Option String           -- entity name; absent on markdown chunks
  path : String
  parent : Option String
  full_content : Option String   -- markdown chunks only
  deriving DecidableEq, Repr

/-- A stored node: `{'content': …, 'meta': …}`. -/
structure Node where
  content : String
  meta : Meta
  deriving DecidableEq, Repr

/-- Placeholder used to totalize dict lookups that Python performs on keys
known to be present (all claims are settled on states where lookups hit). -/
def defaultNode : Node :=
  { content := "", meta := { mtype := "", node_type := "", name := none, path := "",
                             parent := none, full_content := none } }

/-- The state of `KnowledgeGraph`. `adjPlain` records whether `graph`
(markdown→class adjacency) is a plain `dict` (as produced by the msgpack
loader) rather than the `defaultdict(list)` a fresh build uses: a plain
dict raises `KeyError` on a missing key where the defaultdict yields `[]`. -/
structure KnowledgeGraph where
  nodes : PyDict String Node
  graphAdj : PyDict String (List String)
  index : PyDict String (List String)
  class_registry : PyDict String String
  function_registry : PyDict String String
  parent_map : PyDict String String
  documents : List String
  adjPlain : Bool
  deriving DecidableEq, Repr

/-- `KnowledgeGraph.__init__`. -/
def emptyKG : KnowledgeGraph :=
  { nodes := [], graphAdj := [], index := [], class_registry := [],
    function_registry := [], parent_map := [], documents := [], adjPlain := false }

/-- `KnowledgeGraph.add_node(content, meta)`, parameterized by the content
hash `hkey` (sha256 hex digest in the source). Returns the node id and the
updated graph. -/
def addNode (hkey : String → String) (g : KnowledgeGraph) (content : String)
    (meta : Meta) : String × KnowledgeGraph :=
  let node_id := hkey content
  let nodes := dput g.nodes node_id { content := content, meta := meta }
  let documents := g.documents ++ [content]
  let name := pyLower (meta.name.getD "")
  -- the `if type == 'py': if class: … elif function: …` chain, written as
  -- one independent update per registry ("class" and "function" are distinct)
  let creg := if meta.mtype = "py" ∧ meta.node_type = "class" then
      dput g.class_registry name node_id
    else g.class_registry
  let freg := if meta.mtype = "py" ∧ meta.node_type = "function" then
      dput g.function_registry name node_id
    else g.function_registry
  let pmap := if meta.mtype = "py" ∧ meta.node_type = "function" then
      -- `if meta['parent']:` — None and the empty string are falsy
      match meta.parent with
      | some p => if p = "" then g.parent_map else dput g.parent_map node_id (pyLower p)
      | none => g.parent_map
    else g.parent_map
  let index := (tokenize content).foldl (fun ix t => dappend ix t node_id) g.index
  (node_id,
   { g with nodes := nodes, documents := documents, class_registry := creg,
            function_registry := freg, parent_map := pmap, index := index })

/-! ## Python run-time errors -/

/-- Errors raised by the retrieval pipeline (or by its codec collaborators). -/
inductive PyErr where
  | zeroDivisionError        -- Python `ZeroDivisionError`
  | valueErrorMaxEmpty       -- `ValueError: max() arg is an empty sequence`
  | keyError                 -- `KeyError`
  | badFormat                -- `ValueError("Invalid cache format")`
  | versionMismatch          -- `ValueError("Cache version mismatch")`
  | structError              -- `struct.error` on a short buffer
  | zstdError                -- zstd decompression failure
  | msgpackError             -- msgpack unpacking failure
  deriving DecidableEq, Repr

/-! ## Index-backed BM25 (`KnowledgeGraph.bm25_search`) -/

/-- The exclusion test `exclude_types and node['meta'].get('node_type') in
exclude_types` (an empty collection is falsy, so nothing is excluded). -/
def exclNode (g : KnowledgeGraph) (excl : List String) (nid : String) : Bool :=
  !excl.isEmpty && excl.contains ((dget g.nodes nid).getD defaultNode).meta.node_type

/-- The idf of the source: `log((N - df + 0.5) / (df + 0.5) + 1)`. -/
noncomputable def idfOf (N df : ℕ) : ℝ :=
  Real.log (((N : ℝ) - (df : ℝ) + 0.5) / ((df : ℝ) + 0.5) + 1)

/-- The per-posting score the source adds for one query token `t` and one
node: `idf * (tf * (k1 + 1)) / (tf + k1 * (1 - b + b * dl / avgdl))` with
`tf = doc.lower().count(t)` and `dl = len(doc.split())`. -/
noncomputable def nodeTokenScore (g : KnowledgeGraph) (avgdl idf : ℝ) (t : String)
    (nid : String) : ℝ :=
  let doc := ((dget g.nodes nid).getD defaultNode).content
  let tf : ℝ := (countSub (pyLower doc).toList t.toList : ℕ)
  let dl : ℝ := (wsLen doc : ℕ)
  idf * (tf * (1.5 + 1)) / (tf + 1.5 * (1 - 0.75 + 0.75 * dl / avgdl))

/-- The average document length of `bm25_search` (`N ≠ 0` is guarded by the
caller; the source raises `ZeroDivisionError` when `documents` is empty). -/
noncomputable def avgdlOf (g : KnowledgeGraph) : ℝ :=
  ((g.documents.map wsLen).sum : ℕ) / (g.documents.length : ℝ)

/-- The `scores` defaultdict of `bm25_search` after both loops: for each
query token with nonzero `df`, walk the postings list and accumulate. -/
noncomputable def bm25ScoresDict (g : KnowledgeGraph) (query : String)
    (excl : List String) : PyDict String ℝ :=
  let N := g.documents.length
  let avgdl := avgdlOf g
  (tokenize query).foldl (fun scores token =>
    let postings := (dget g.index token).getD []
    if postings.length = 0 then scores
    else
      let idf := idfOf N postings.length
      postings.foldl (fun scores node_id =>
        if exclNode g excl node_id then scores
        else dincr scores node_id (nodeTokenScore g avgdl idf token node_id)) scores) []

/-- The score `bm25_search` assigns to a node (`0` when absent). -/
noncomputable def bm25ScoreOf (g : KnowledgeGraph) (query : String) (excl : List String)
    (nid : String) : ℝ :=
  (dget (bm25ScoresDict g query excl) nid).getD 0

/-- Stable descending insertion by score: the embedding of
`sorted(scores.items(), key=lambda x: -x[1])` (CPython's sort is stable). -/
noncomputable def insDesc (x : String × ℝ) : List (String × ℝ) → List (String × ℝ)
  | [] => [x]
  | y :: ys => if y.2 < x.2 then x :: y :: ys else y :: insDesc x ys

noncomputable def sortDesc (l : List (String × ℝ)) : List (String × ℝ) :=
  l.foldl (fun acc x => insDesc x acc) []

/-- `KnowledgeGraph.bm25_search(query, top_n, exclude_types)`. Computing
`avgdl` divides by `len(self.documents)` before anything else, raising
`ZeroDivisionError` on an empty graph. -/
noncomputable def bm25Search (g : KnowledgeGraph) (query : String) (top_n : ℕ)
    (excl : List String) : Except PyErr (List (String × ℝ)) :=
  match g.documents with
  | [] => .error .zeroDivisionError
  | _ :: _ => .ok ((sortDesc (bm25ScoresDict g query excl)).take top_n)

/-! ## Claim C1: spec-side score

The claim's reading of `bm25_search`: each query token contributes at most
once to a candidate's score, regardless of how often the candidate appears
in the token's postings list. -/

noncomputable def specScoreOnceC1 (g : KnowledgeGraph) (query : String) (excl : List String)
    (nid : String) : ℝ :=
  ((tokenize query).map (fun t =>
    let postings := (dget g.index t).getD []
    if postings.length = 0 then 0
    else if exclNode g excl nid then 0
    else if nid ∈ postings then
      nodeTokenScore g (avgdlOf g) (idfOf g.documents.length postings.length) t nid
    else 0)).sum

/-! ## Chunker: markdown -/

/-- Split into lines at `'\n'` (each line excludes the newline). -/
def splitLinesAux (cur : List Char) : List Char → List (List Char)
  | [] => [cur.reverse]
  | c :: cs => if c = '\n' then cur.reverse :: splitLinesAux [] cs else splitLinesAux (c :: cur) cs

/-- Does a line match `^#{minL,} ` (a run of at least `minL` `#` followed by
a space)? Any shorter `#`-prefix is followed by another `#`, so the regex
match is exactly: full `#`-run of length `≥ minL`, then a space. -/
def isHeadingLine (minL : ℕ) (line : List Char) : Bool :=
  let hs := line.takeWhile (fun c => c == '#')
  decide (minL ≤ hs.length) &&
    (match line.drop hs.length with
     | ' ' :: _ => true
     | _ => false)

/-- Group the lines into the pieces of
`re.split(rf'(?=^#{{minL,}} )', content, flags=re.MULTILINE)`: a zero-width
split immediately before every heading line. The leading piece (possibly
empty) collects the lines before the first heading. -/
def groupLinesAux (minL : ℕ) (cur : List (List Char)) :
    List (List Char) → List (List (List Char))
  | [] => [cur]
  | l :: ls =>
    if isHeadingLine minL l then cur :: groupLinesAux minL [l] ls
    else groupLinesAux minL (cur ++ [l]) ls

/-- `Chunker.chunk_markdown(content, path, min_section_level)`: split before
each heading of level `≥ minL`, strip each piece, drop empty pieces, store
the stripped piece with markdown metadata (`full_content` keeps the whole
file for later whole-file promotion). -/
def chunkMarkdown (content path : String) (minL : ℕ) : List Node :=
  let lines := splitLinesAux [] content.toList
  let groups := groupLinesAux minL [] lines
  let pieces := groups.map (fun g => pyStrip (String.mk (List.intercalate ['\n'] g)))
  (pieces.filter (fun p => p ≠ "")).map (fun p =>
    { content := p,
      meta := { mtype := "md", node_type := "section", name := none, path := path,
                parent := none, full_content := some content } })

/-! ## Chunker: Python source (the `ast.NodeVisitor` collector) -/

/-- Python statements as far as the collector observes them: class
definitions, function definitions, and any other statement (whose children
`generic_visit` still walks). -/
inductive PyStmt where
  | classDef (name : String) (body : List PyStmt)
  | funcDef (name : String) (body : List PyStmt)
  | other (body : List PyStmt)

/-- The metadata of one collected chunk (source segment and line number are
irrelevant to the claims and omitted). -/
structure PyChunk where
  node_type : String
  name : String
  parent : Option String
  deriving DecidableEq, Repr

/-- The collector's mutable state: `self.stack`, `self.current_class`, and
the chunk list being built. -/
structure CollectorSt where
  stack : List String
  current_class : Option String
  chunks : List PyChunk
  deriving DecidableEq, Repr

mutual

/-- `Collector.visit` on one statement. `visit_ClassDef` sets
`current_class` to the lowercased class name, emits the class chunk (its
`parent` is the `' > '`-joined stack), pushes `class <name>`, walks the
body, pops, and then sets `current_class = None` (it does not restore the
previous value). `visit_FunctionDef` emits the function chunk with
`parent = current_class`, pushes `def <name>`, walks the body, and pops
without touching `current_class`. -/
def visitStmt : CollectorSt → PyStmt → CollectorSt
  | st, .classDef name body =>
    let chunk : PyChunk :=
      { node_type := "class", name := name,
        parent := if st.stack = [] then none
                  else some (String.intercalate " > " st.stack) }
    let st1 : CollectorSt :=
      { st with current_class := some (pyLower name), chunks := st.chunks ++ [chunk] }
    let st2 := { st1 with stack := st1.stack ++ ["class " ++ name] }
    let st3 := visitBody st2 body
    { st3 with stack := st3.stack.dropLast, current_class := none }
  | st, .funcDef name body =>
    let chunk : PyChunk :=
      { node_type := "function", name := name, parent := st.current_class }
    let st1 : CollectorSt := { st with chunks := st.chunks ++ [chunk] }
    let st2 := { st1 with stack := st1.stack ++ ["def " ++ name] }
    let st3 := visitBody st2 body
    { st3 with stack := st3.stack.dropLast }
  | st, .other body => visitBody st body

/-- `generic_visit`: walk the children in order. -/
def visitBody : CollectorSt → List PyStmt → CollectorSt
  | st, [] => st
  | st, s :: ss => visitBody (visitStmt st s) ss

end

/-- `Chunker.chunk_python` restricted to the collected chunk metadata. -/
def chunkPython (mod : List PyStmt) : List PyChunk :=
  (visitBody { stack := [], current_class := none, chunks := [] } mod).chunks

/-! ## Ad-hoc BM25 (`DocGraph._bm25_score`) -/

/-- One document's contribution to the `df` defaultdict: each token counted
once per document, using a `seen` set. -/
def addDocDF (df : PyDict String ℕ) (seen : List String) : List String → PyDict String ℕ
  | [] => df
  | t :: ts =>
    if t ∈ seen then addDocDF df seen ts
    else addDocDF (dincrNat df t 1) (t :: seen) ts

/-- The `df` defaultdict of `_bm25_score`. -/
def dfDictOf (docs : List (String × String)) : PyDict String ℕ :=
  docs.foldl (fun df d => addDocDF df [] (tokenize d.2)) []

/-- Number of candidate documents whose token stream contains `t`. -/
def dfCount (docs : List (String × String)) (t : String) : ℕ :=
  (docs.filter (fun x => t ∈ tokenize x.2)).length

/-- The average document length of `_bm25_score` (whitespace-split counts,
like the index-backed scorer). -/
noncomputable def avgdlDocs (docs : List (String × String)) : ℝ :=
  ((docs.map (fun d => wsLen d.2)).sum : ℕ) / (docs.length : ℝ)

/-- The per-candidate, per-token score `_bm25_score` adds:
`tf = doc_tokens.count(token)` and `dl = len(doc_tokens)` over the
*tokenized* content. -/
noncomputable def adhocTokScore (docs : List (String × String)) (d : String × String)
    (t : String) (dfv : ℕ) : ℝ :=
  let doc_tokens := tokenize d.2
  let tf : ℝ := (doc_tokens.count t : ℕ)
  let dl : ℝ := (doc_tokens.length : ℕ)
  idfOf docs.length dfv * (tf * (1.5 + 1)) /
    (tf + 1.5 * (1 - 0.75 + 0.75 * dl / avgdlDocs docs))

/-- The `scores` defaultdict of `_bm25_score(query, documents)`: `df` from
per-document distinct tokens; a query token missing from `df` is skipped. -/
noncomputable def bm25OverDict (query : String) (docs : List (String × String)) :
    PyDict String ℝ :=
  docs.foldl (fun scores d =>
    (tokenize query).foldl (fun scores token =>
      match dget (dfDictOf docs) token with
      | none => scores
      | some dfv => dincr scores d.1 (adhocTokScore docs d token dfv))
      scores) []

/-- The score `_bm25_score` assigns to a candidate id (`0` when absent). -/
noncomputable def bm25OverScoreOf (query : String) (docs : List (String × String))
    (cid : String) : ℝ :=
  (dget (bm25OverDict query docs) cid).getD 0

/-! ## Claim C7: spec-side ad-hoc score

The claim's reading: the index-backed formula with `df`, `avgdl`, `N`
recomputed from the candidate list, `dl` the whitespace-split count and
`tf` the substring count over the lowercased content. -/

noncomputable def specBm25OverClaimC7 (query : String) (docs : List (String × String))
    (d : String × String) : ℝ :=
  let N := docs.length
  ((tokenize query).map (fun t =>
    let dfv := dfCount docs t
    if dfv = 0 then 0
    else
      let tf : ℝ := (countSub (pyLower d.2).toList t.toList : ℕ)
      let dl : ℝ := (wsLen d.2 : ℕ)
      idfOf N dfv * (tf * (1.5 + 1)) /
        (tf + 1.5 * (1 - 0.75 + 0.75 * dl / avgdlDocs docs)))).sum

/-- C7 amended spec-side score: `df`, `avgdl`, `N` recomputed from the
candidate list with the index-backed formula, but `tf` is the exact token
count within the tokenized content and `dl` is the tokenized length. -/
noncomputable def specBm25OverAmendedC7 (query : String) (docs : List (String × String))
    (d : String × String) : ℝ :=
  ((tokenize query).map (fun t =>
    if dfCount docs t = 0 then 0
    else adhocTokScore docs d t (dfCount docs t))).sum

/-! ## Stage 2–3: `DocGraph._find_related_classes` -/

/-- Reading `self.graph.graph[k]`: a fresh build holds a
`defaultdict(list)` (missing key yields `[]`), a loaded graph holds the
plain dict msgpack produced (missing key raises `KeyError`). -/
def adjGet (g : KnowledgeGraph) (k : String) : Except PyErr (List String) :=
  match dget g.graphAdj k with
  | some v => .ok v
  | none => if g.adjPlain then .error .keyError else .ok []

/-- `class_candidates = set(); for node_id, _ in doc_nodes:
candidates.update(graph[node_id])` — set insertion order fixed to first
encounter (the claims do not depend on CPython's set iteration order). -/
def computeCands (g : KnowledgeGraph) (docNodes : List (String × ℝ)) :
    Except PyErr (List String) :=
  docNodes.foldlM (fun acc p => do
    let es ← adjGet g p.1
    pure (es.foldl (fun acc e => if e ∈ acc then acc else acc ++ [e]) acc)) []

/-- `max` over a nonempty list of floats (callers guard emptiness; the `[]`
value is never used). -/
noncomputable def listMaxR : List ℝ → ℝ
  | [] => 0
  | x :: xs => xs.foldl max x

/-- `DocGraph._find_related_classes(doc_nodes, query)` with every `max()`
on an empty sequence and every division by zero made explicit. -/
noncomputable def findRelatedClasses (g : KnowledgeGraph) (docNodes : List (String × ℝ))
    (query : String) : Except PyErr (List (String × ℝ)) := do
  let cands ← computeCands g docNodes
  match cands with
  | [] => pure []
  | _ :: _ =>
    let contents := cands.map (fun cid => (cid, ((dget g.nodes cid).getD defaultNode).content))
    let classScores := bm25OverDict query contents
    match classScores with
    | [] => .error .valueErrorMaxEmpty
    | _ :: _ =>
      let maxC := listMaxR (classScores.map (fun p => p.2))
      if maxC = 0 then .error .zeroDivisionError
      else
        let classScoresN := classScores.map (fun p => (p.1, p.2 / maxC))
        match docNodes with
        | [] => .error .valueErrorMaxEmpty
        | _ :: _ =>
          let maxD := listMaxR (docNodes.map (fun p => p.2))
          if maxD = 0 then .error .zeroDivisionError
          else
            let docScoresN := docNodes.map (fun p => (p.1, p.2 / maxD))
            let mention ← cands.foldlM (fun m cid =>
              docScoresN.foldlM (fun m p => do
                let es ← adjGet g p.1
                pure (if cid ∈ es then dincr m cid (p.2 * 0.7) else m)) m)
              ([] : PyDict String ℝ)
            match mention with
            | [] => .error .valueErrorMaxEmpty
            | _ :: _ =>
              let maxM := listMaxR (mention.map (fun p => p.2))
              if maxM = 0 then .error .zeroDivisionError
              else
                let mentionN := mention.map (fun p => (p.1, p.2 / maxM))
                let combined := cands.map (fun cid =>
                  let bm := (dget classScoresN cid).getD 0
                  let ds := (dget mentionN cid).getD 0
                  let damp := 1 / (1 + |bm| ^ ((1.5 : ℝ)))
                  (cid, bm + ds * damp))
                pure (sortDesc combined)

/-- Claim C8 as stated: there is a graph and query where stage 2 yields a
nonempty candidate set, no candidate's content contains any query token,
and the stage-3 normalization raises `ZeroDivisionError`. -/
def claimC8Stated : Prop :=
  ∃ (g : KnowledgeGraph) (docNodes : List (String × ℝ)) (query : String)
    (cands : List String),
    computeCands g docNodes = .ok cands ∧ cands ≠ [] ∧
    (∀ t ∈ tokenize query, ∀ cid ∈ cands,
      t ∉ tokenize ((dget g.nodes cid).getD defaultNode).content) ∧
    findRelatedClasses g docNodes query = .error .zeroDivisionError

/-! ## Stage 4–5: `DocGraph._format_results` and `DocGraph.query` -/

/-- A entry of `final_docs`: either a promoted whole file or a section node. -/
inductive FDoc where
  | full (content path : String)
  | sect (n : Node)
  deriving DecidableEq, Repr

/-- Group retrieved doc nodes by `meta['path']` (defaultdict of lists,
first-encounter key order). -/
def groupByPath (g : KnowledgeGraph) (docNodes : List (String × ℝ)) :
    PyDict String (List Node) :=
  docNodes.foldl (fun m p =>
    let node := (dget g.nodes p.1).getD defaultNode
    dappend m node.meta.path node) []

/-- The per-file promotion decision of `_format_results`. The `try` block
falls back to the section chunks when `full_content` is absent (`KeyError`)
or when the file re-chunks to zero chunks (`ZeroDivisionError`); otherwise
the group is promoted iff `selected/total >= file_coverage`. -/
noncomputable def promoteGroup (cov : ℝ) (path : String) (nodes : List Node) : List FDoc :=
  match nodes with
  | [] => []
  | n0 :: _ =>
    match n0.meta.full_content with
    | none => nodes.map FDoc.sect
    | some fc =>
      let total := (chunkMarkdown fc path 2).length
      if total = 0 then nodes.map FDoc.sect
      else if cov ≤ (nodes.length : ℝ) / (total : ℝ) then [FDoc.full fc path]
      else nodes.map FDoc.sect

/-- Render one `final_docs` entry. -/
def renderFDoc (fd : FDoc) : String :=
  match fd with
  | .full c p => "## FULL FILE: " ++ pathName p ++ "\n```markdown\n" ++ c ++ "\n```"
  | .sect n => "## " ++ pathName n.meta.path ++ "\n```markdown\n" ++ n.content ++ "\n```"

/-- `DocGraph._format_results(doc_nodes, class_nodes, function_nodes,
file_coverage)`. -/
noncomputable def formatResults (g : KnowledgeGraph)
    (docNodes classNodes fnNodes : List (String × ℝ)) (cov : ℝ) : String :=
  let fmap := groupByPath g docNodes
  let finalDocs := fmap.foldl (fun acc pr => acc ++ promoteGroup cov pr.1 pr.2) []
  let docOut := (finalDocs.take docNodes.length).map renderFDoc
  let classOut :=
    match classNodes with
    | [] => ([] : List String)
    | _ :: _ => "\n# Related Classes\n" :: classNodes.map (fun p =>
        let n := (dget g.nodes p.1).getD defaultNode
        "## " ++ n.meta.name.getD "" ++ "\n```python\n" ++ n.content ++ "\n```")
  let fnOut :=
    match fnNodes with
    | [] => ([] : List String)
    | _ :: _ => "\n# Related Functions\n" :: fnNodes.map (fun p =>
        let n := (dget g.nodes p.1).getD defaultNode
        let par := match n.meta.parent with
          | some s => if s = "" then "" else " (" ++ s ++ ")"
          | none => ""
        "## " ++ n.meta.name.getD "" ++ par ++ "\n```python\n" ++ n.content ++ "\n```")
  String.intercalate "\n" (("# Documentation Context\n" :: docOut) ++ classOut ++ fnOut)

/-- The exclusion set `{'class', 'function'}` of `DocGraph.query`. -/
def excl0 : List String := ["class", "function"]

/-- `DocGraph.query(question, top_n, top_m, file_coverage)`. -/
noncomputable def queryDG (g : KnowledgeGraph) (question : String) (top_n top_m : ℕ)
    (cov : ℝ) : Except PyErr String := do
  let docNodes ← bm25Search g question top_n excl0
  let classNodes ← findRelatedClasses g docNodes question
  pure (formatResults g (docNodes.take top_n) (classNodes.take top_m) [] cov)

/-! ## Index codec (`DocGraph.persist` / `DocGraph.load`) -/

/-- The serialized `state` mapping. Serialization keeps only dict contents,
so the `graph` component inside a `PState` always has `adjPlain = true`. -/
structure PState where
  graph : KnowledgeGraph
  code_root : Option String
  docs_root : Option String
  exclude : List String
  version : ℕ
  deriving DecidableEq, Repr

/-- The `DocGraph` fields the codec touches. -/
structure DocGraphState where
  graph : KnowledgeGraph
  code_root : Option String
  docs_root : Option String
  exclude : List String
  deriving DecidableEq, Repr

/-- The `state` dict `persist` builds (version mirrored in the header;
msgpack keeps dict contents but not the `defaultdict` wrapper). -/
def stateOf (dg : DocGraphState) : PState :=
  { graph := { dg.graph with adjPlain := true },
    code_root := dg.code_root, docs_root := dg.docs_root,
    exclude := dg.exclude, version := 2 }

/-- `struct.pack('!I'/'!Q', n)`: `k` bytes of `n`, big-endian. -/
def beBytes : ℕ → ℕ → List ℕ
  | 0, _ => []
  | k + 1, n => beBytes k (n / 256) ++ [n % 256]

/-- Big-endian byte decoding (`struct.unpack`). -/
def deBE (l : List ℕ) : ℕ := l.foldl (fun a b => a * 256 + b) 0

/-- The magic header `b'C4AIV2'`. -/
def magicBytes : List ℕ := [67, 52, 65, 73, 86, 50]

/-- `DocGraph.persist(path)`: magic, big-endian u32 version 2, big-endian
u64 compressed length, compressed msgpack body. `pack` and `comp` stand for
`msgpack.packb` and the zstd compressor. -/
def persistBytes (pack : PState → List ℕ) (comp : List ℕ → List ℕ)
    (dg : DocGraphState) : List ℕ :=
  let compressed := comp (pack (stateOf dg))
  magicBytes ++ beBytes 4 2 ++ beBytes 8 compressed.length ++ compressed

/-- Rebuilding the instance from the unpacked state: every graph dict is
now a plain dict (`adjPlain := true`); `code_root`/`docs_root` are restored
only when truthy. -/
def reconstruct (st : PState) : DocGraphState :=
  { graph := { st.graph with adjPlain := true },
    code_root := match st.code_root with
      | some s => if s = "" then none else some s
      | none => none,
    docs_root := match st.docs_root with
      | some s => if s = "" then none else some s
      | none => none,
    exclude := st.exclude }

/-- `DocGraph.load(path)`: check magic, check version, read the length,
decompress (`decomp`), unpack (`unpack`), rebuild. Short buffers fail like
`struct.unpack` does. -/
def loadBytes (unpack : List ℕ → Option PState) (decomp : List ℕ → Option (List ℕ))
    (f : List ℕ) : Except PyErr DocGraphState :=
  if f.take 6 ≠ magicBytes then .error .badFormat
  else if ((f.drop 6).take 4).length ≠ 4 then .error .structError
  else if deBE ((f.drop 6).take 4) ≠ 2 then .error .versionMismatch
  else if ((f.drop 10).take 8).length ≠ 8 then .error .structError
  else
    -- `size = deBE ((f.drop 10).take 8)`; `compressed = (f.drop 18).take size`
    match decomp ((f.drop 18).take (deBE ((f.drop 10).take 8))) with
    | none => .error .zstdError
    | some packed =>
      match unpack packed with
      | none => .error .msgpackError
      | some st => .ok (reconstruct st)

/-! ## Concrete instances used by counterexamples and witnesses -/

/-- Markdown section metadata for a file whose whole content is `full`. -/
def mdMetaOf (path full : String) : Meta :=
  { mtype := "md", node_type := "section", name := none, path := path,
    parent := none, full_content := some full }

/-- C1: a graph holding the single chunk `"foo foo"` (one `add_node` call;
the token `foo` occurs twice, so its postings list holds the node id
twice). The hash is instantiated with the identity function. -/
def kgC1 : KnowledgeGraph :=
  (addNode (fun s => s) emptyKG "foo foo" (mdMetaOf "d.md" "foo foo")).2

/-- C2/C9: a graph holding the single chunk `"hello"` with no cross-edges. -/
def kgC2 : KnowledgeGraph :=
  (addNode (fun s => s) emptyKG "hello" (mdMetaOf "d.md" "hello")).2

/-- C2: the `DocGraph` wrapping `kgC2`. -/
def dgC2 : DocGraphState :=
  { graph := kgC2, code_root := some "/c", docs_root := some "/d", exclude := [] }

/-- C8: a graph with one doc node `d1` (content `"doc"`) cross-linked to a
class node `c1` whose content `"zzz"` shares no token with the query. -/
def kgC8 : KnowledgeGraph :=
  { nodes := [("d1", { content := "doc", meta := mdMetaOf "d.md" "doc" }),
              ("c1", { content := "zzz",
                       meta := { mtype := "py", node_type := "class", name := some "Z",
                                 path := "z.py", parent := none, full_content := none } })],
    graphAdj := [("d1", ["c1"])], index := [], class_registry := [("z", "c1")],
    function_registry := [], parent_map := [], documents := ["doc", "zzz"],
    adjPlain := false }

/-- C5: `class A: class B: pass; def m(self): pass` — a method after a
nested class inside the same enclosing class. -/
def modC5 : List PyStmt := [.classDef "A" [.classDef "B" [], .funcDef "m" []]]

/-- C7: one candidate whose content `"a.b c"` tokenizes to three tokens but
whitespace-splits to two. -/
def docsC7 : List (String × String) := [("x", "a.b c")]

/-- C9: a two-section markdown file. -/
def fcC9 : String := "## A\nx\n## B\ny"

/-- C9: the first section chunk of `fcC9`. -/
def nodeC9 : Node := { content := "## A\nx", meta := mdMetaOf "p.md" fcC9 }

/-! # Lemmas and claim theorems -/

@[simp] theorem dget_nil {K V : Type} [DecidableEq K] (k : K) :
    dget ([] : PyDict K V) k = none := rfl

@[simp] theorem dget_cons {K V : Type} [DecidableEq K] (k k' : K) (v : V) (d : PyDict K V) :
    dget ((k', v) :: d) k = if k = k' then some v else dget d k := rfl

theorem dput_self {K V : Type} [DecidableEq K] (d : PyDict K V) (k : K) (v : V)
    (h : dget d k = some v) : dput d k v = d := by
  induction d with
  | nil => simp [dget] at h
  | cons p rest ih =>
    obtain ⟨k', v'⟩ := p
    by_cases hk : k = k'
    · subst hk
      simp [dget] at h
      simp [dput, h]
    · simp [dget, hk] at h
      simp [dput, hk, ih h]

theorem dget_dput {K V : Type} [DecidableEq K] (d : PyDict K V) (k u : K) (v : V) :
    dget (dput d k v) u = if u = k then some v else dget d u := by
  induction d with
  | nil => simp [dput, dget]
  | cons p rest ih =>
    obtain ⟨k', v'⟩ := p
    by_cases hk : k = k'
    · subst hk
      by_cases hu : u = k <;> simp [dput, dget, hu]
    · by_cases hu : u = k'
      · subst hu
        simp [dput, hk, dget, Ne.symm hk]
      · simp [dput, hk, dget, hu, ih]

theorem dput_dput {K V : Type} [DecidableEq K] (d : PyDict K V) (k : K) (v v' : V) :
    dput (dput d k v) k v' = dput d k v' := by
  induction d with
  | nil => simp [dput]
  | cons p rest ih =>
    obtain ⟨k', w⟩ := p
    by_cases hk : k = k' <;> simp [dput, hk, ih]

theorem dget_dincr {K : Type} [DecidableEq K] (d : PyDict K ℝ) (k u : K) (x : ℝ) :
    ((dget (dincr d k x) u).getD 0) =
      (dget d u).getD 0 + (if u = k then x else 0) := by
  induction d with
  | nil =>
    by_cases hu : u = k <;> simp [dincr, dget, hu]
  | cons p rest ih =>
    obtain ⟨k', v'⟩ := p
    by_cases hk : k = k'
    · subst hk
      by_cases hu : u = k <;> simp [dincr, dget, hu]
    · by_cases hu : u = k'
      · subst hu
        simp [dincr, hk, dget, Ne.symm hk]
      · simp [dincr, hk, dget, hu, ih]

theorem dget_dappend {K V : Type} [DecidableEq K] (d : PyDict K (List V)) (k u : K) (v : V) :
    ((dget (dappend d k v) u).getD []) =
      (dget d u).getD [] ++ (if u = k then [v] else []) := by
  induction d with
  | nil =>
    by_cases hu : u = k <;> simp [dappend, dget, hu]
  | cons p rest ih =>
    obtain ⟨k', vs⟩ := p
    by_cases hk : k = k'
    · subst hk
      by_cases hu : u = k <;> simp [dappend, dget, hu]
    · by_cases hu : u = k'
      · subst hu
        simp [dappend, hk, dget, Ne.symm hk]
      · simp [dappend, hk, dget, hu, ih]

@[simp] theorem runsOf_nil (p : Char → Bool) : runsOf p [] = [] := by
  rw [runsOf]

theorem runsOf_cons (p : Char → Bool) (c : Char) (cs : List Char) :
    runsOf p (c :: cs) =
      if p c then (c :: cs.takeWhile p) :: runsOf p (cs.dropWhile p)
      else runsOf p cs := by
  rw [runsOf]

theorem specWordChar_eq_isWordChar : specWordChar = isWordChar := by
  funext c
  simp only [specWordChar, isWordChar]
  by_cases h1 : ('A' ≤ c && c ≤ 'Z') = true <;>
    by_cases h2 : ('a' ≤ c && c ≤ 'z') = true <;>
      simp [h1, h2]

theorem runsAcc_eq_runsOf (p : Char → Bool) :
    ∀ l : List Char,
      runsAcc p [] l = runsOf p l ∧
      ∀ cur : List Char, cur ≠ [] →
        runsAcc p cur l =
          (cur.reverse ++ l.takeWhile p) :: runsOf p (l.dropWhile p) := by
  intro l
  induction l with
  | nil =>
    constructor
    · simp [runsAcc]
    · intro cur hc
      simp [runsAcc, hc]
  | cons c cs ih =>
    constructor
    · by_cases h : p c = true
      · have h2 : runsAcc p [c] cs =
            (([c] : List Char).reverse ++ cs.takeWhile p) ::
              runsOf p (cs.dropWhile p) :=
          ih.2 [c] (by simp)
        simp only [runsAcc, h, if_pos]
        rw [h2, runsOf_cons]
        simp [h]
      · simp only [runsAcc, h, Bool.false_eq_true, if_false, if_pos rfl]
        rw [ih.1, runsOf_cons]
        simp [h]
    · intro cur hc
      by_cases h : p c = true
      · have h2 := ih.2 (c :: cur) (by simp)
        simp only [runsAcc, h, if_pos]
        rw [h2]
        simp [h]
      · simp only [runsAcc, h, Bool.false_eq_true, if_false, if_neg hc]
        rw [ih.1]
        simp only [List.takeWhile, List.dropWhile, h, Bool.false_eq_true, if_false,
          List.append_nil]
        rw [runsOf_cons]
        simp [h]

/-- Inner postings loop: each occurrence of a node id adds the same
per-token score once more. -/
theorem postings_foldl_get (g : KnowledgeGraph) (excl : List String) (avgdl idf : ℝ)
    (t : String) :
    ∀ (postings : List String) (scores : PyDict String ℝ) (x : String),
      ((dget (postings.foldl (fun scores node_id =>
          if exclNode g excl node_id then scores
          else dincr scores node_id (nodeTokenScore g avgdl idf t node_id)) scores) x).getD 0)
        = (dget scores x).getD 0 +
          (if exclNode g excl x then 0
           else (postings.count x : ℝ) * nodeTokenScore g avgdl idf t x) := by
  intro postings
  induction postings with
  | nil =>
    intro scores x
    by_cases h : exclNode g excl x <;> simp [h]
  | cons nid rest ih =>
    intro scores x
    simp only [List.foldl_cons]
    by_cases hn : exclNode g excl nid
    · rw [if_pos hn, ih]
      by_cases hx : exclNode g excl x
      · simp [hx]
      · have hne : ¬(nid == x) = true := by
          simp only [beq_iff_eq]
          intro h
          exact hx (h ▸ hn)
        rw [if_neg hx, if_neg hx, List.count_cons]
        simp [hne]
    · rw [if_neg hn, ih]
      by_cases hx : exclNode g excl x
      · have hne : x ≠ nid := by
          intro h
          subst h
          exact hn hx
        rw [if_pos hx, if_pos hx, dget_dincr, if_neg hne]
        ring
      · rw [if_neg hx, if_neg hx, dget_dincr, List.count_cons]
        by_cases hxe : x = nid
        · subst hxe
          simp only [if_pos rfl, beq_self_eq_true, if_pos]
          push_cast
          ring
        · have : ¬(nid == x) = true := by simpa [beq_iff_eq] using fun h => hxe h.symm
          simp only [if_neg hxe, this, if_false]
          push_cast
          ring

/-- Outer token loop: the accumulated score of a node is the sum over query
token occurrences of (postings multiplicity) × (per-token score). -/
theorem bm25ScoreOf_eq_sum (g : KnowledgeGraph) (query : String) (excl : List String)
    (x : String) :
    bm25ScoreOf g query excl x =
      ((tokenize query).map (fun t =>
        let postings := (dget g.index t).getD []
        if postings.length = 0 then 0
        else if exclNode g excl x then 0
        else (postings.count x : ℝ) *
          nodeTokenScore g (avgdlOf g) (idfOf g.documents.length postings.length) t x)).sum := by
  unfold bm25ScoreOf bm25ScoresDict
  generalize tokenize query = tokens
  suffices h : ∀ (tokens : List String) (scores : PyDict String ℝ),
      ((dget (tokens.foldl (fun scores token =>
        let postings := (dget g.index token).getD []
        if postings.length = 0 then scores
        else
          let idf := idfOf g.documents.length postings.length
          postings.foldl (fun scores node_id =>
            if exclNode g excl node_id then scores
            else dincr scores node_id (nodeTokenScore g (avgdlOf g) idf token node_id))
            scores) scores) x).getD 0)
        = (dget scores x).getD 0 +
          (tokens.map (fun t =>
            let postings := (dget g.index t).getD []
            if postings.length = 0 then 0
            else if exclNode g excl x then 0
            else (postings.count x : ℝ) *
              nodeTokenScore g (avgdlOf g) (idfOf g.documents.length postings.length) t x)).sum by
    simpa using h tokens []
  intro tokens
  induction tokens with
  | nil => intro scores; simp
  | cons t rest ih =>
    intro scores
    simp only [List.foldl_cons, List.map_cons, List.sum_cons]
    by_cases hdf : ((dget g.index t).getD []).length = 0
    · rw [if_pos hdf] at *
      rw [ih]
      simp [hdf]
    · simp only [if_neg hdf]
      rw [ih, postings_foldl_get]
      by_cases hx : exclNode g excl x
      · simp only [hx, if_true]
        ring
      · simp only [hx, Bool.false_eq_true, if_false]
        ring

/-! ## Claim C4 -/

/-- C4: for every input string, the tokenizer used for indexing,
cross-edge detection and query processing returns exactly the maximal runs
of characters in `[A-Za-z0-9_]` of the lowercased string, in order of
occurrence. -/
theorem c4_tokenize_is_maximal_runs (s : String) : tokenize s = specTokensC4 s := by
  unfold tokenize specTokensC4
  rw [(runsAcc_eq_runsOf isWordChar (pyLower s).toList).1, specWordChar_eq_isWordChar]

/-! ## Claim C5 -/

/-- C5: evaluation of the chunker on
`class A: class B: pass; def m(self): pass`. The method `m` appears after
the nested class `B` inside `A`; the claim (and the spec) require its
`parent` to be `"a"`, but `visit_ClassDef` resets `current_class` to `None`
when it finishes `B` instead of restoring the enclosing class, so `m`'s
chunk carries `parent = None`. -/
theorem c5_method_after_nested_class_has_no_parent :
    chunkPython modC5 =
      [{ node_type := "class", name := "A", parent := none },
       { node_type := "class", name := "B", parent := some "class A" },
       { node_type := "function", name := "m", parent := none }] := by
  decide

/-! ## Claim C10 -/

/-- C10: on a graph whose `documents` list is empty, `bm25_search` — and
therefore `query` — raises `ZeroDivisionError` while computing the average
document length, instead of returning an empty result. -/
theorem c10_empty_graph_raises_zerodivision (g : KnowledgeGraph) (query : String)
    (top_n top_m : ℕ) (excl : List String) (cov : ℝ) (h : g.documents = []) :
    bm25Search g query top_n excl = .error .zeroDivisionError ∧
    queryDG g query top_n top_m cov = .error .zeroDivisionError := by
  have hb : ∀ ex, bm25Search g query top_n ex = .error .zeroDivisionError := by
    intro ex
    unfold bm25Search
    rw [h]
  refine ⟨hb excl, ?_⟩
  unfold queryDG
  rw [hb excl0]
  rfl

/-- C10 witness: the empty graph. -/
theorem c10_witness :
    emptyKG.documents = [] ∧
    bm25Search emptyKG "anything" 10 [] = .error .zeroDivisionError ∧
    queryDG emptyKG "anything" 10 3 (3 / 5 : ℝ) = .error .zeroDivisionError := by
  refine ⟨rfl, ?_, ?_⟩
  · exact (c10_empty_graph_raises_zerodivision emptyKG "anything" 10 3 [] (3 / 5) rfl).1
  · exact (c10_empty_graph_raises_zerodivision emptyKG "anything" 10 3 [] (3 / 5) rfl).2

/-! ## Claim C3 -/

/-- Indexing a content string appends the node id to each of its tokens'
postings lists, one occurrence per token occurrence. -/
theorem foldl_dappend_get (id : String) :
    ∀ (toks : List String) (ix : PyDict String (List String)) (t : String),
      ((dget (toks.foldl (fun ix t' => dappend ix t' id) ix) t).getD []) =
        (dget ix t).getD [] ++ List.replicate (toks.count t) id := by
  intro toks
  induction toks with
  | nil => intro ix t; simp
  | cons u rest ih =>
    intro ix t
    simp only [List.foldl_cons]
    rw [ih, dget_dappend, List.count_cons]
    by_cases h : t = u
    · subst h
      simp [List.replicate_succ]
    · have : ¬(u == t) = true := by simpa [beq_iff_eq] using fun hh => h hh.symm
      simp [h, this]

/-- C3 (amended): inserting the identical chunk twice leaves `nodes`,
`class_registry`, `function_registry` and `parent_map` unchanged and
appends exactly one entry to `documents`, but it does **not** leave the
inverted index unchanged: every token of the content gains one more
occurrence of the node id in its postings list. -/
theorem c3_duplicate_insert (hkey : String → String) (g : KnowledgeGraph)
    (content : String) (meta : Meta) :
    ((addNode hkey (addNode hkey g content meta).2 content meta).2.nodes
        = (addNode hkey g content meta).2.nodes) ∧
    ((addNode hkey (addNode hkey g content meta).2 content meta).2.class_registry
        = (addNode hkey g content meta).2.class_registry) ∧
    ((addNode hkey (addNode hkey g content meta).2 content meta).2.function_registry
        = (addNode hkey g content meta).2.function_registry) ∧
    ((addNode hkey (addNode hkey g content meta).2 content meta).2.parent_map
        = (addNode hkey g content meta).2.parent_map) ∧
    ((addNode hkey (addNode hkey g content meta).2 content meta).2.documents
        = (addNode hkey g content meta).2.documents ++ [content]) ∧
    (∀ t, (dget (addNode hkey (addNode hkey g content meta).2 content meta).2.index t).getD []
        = (dget (addNode hkey g content meta).2.index t).getD []
            ++ List.replicate ((tokenize content).count t) (hkey content)) := by
  simp only [addNode]
  refine ⟨?_, ?_, ?_, ?_, ?_, ?_⟩
  · exact dput_dput _ _ _ _
  · by_cases h : meta.mtype = "py" ∧ meta.node_type = "class"
    · simp [h, dput_dput]
    · simp [h]
  · by_cases h : meta.mtype = "py" ∧ meta.node_type = "function"
    · simp [h, dput_dput]
    · simp [h]
  · by_cases h : meta.mtype = "py" ∧ meta.node_type = "function"
    · simp only [h, if_true]
      cases hp : meta.parent with
      | none => rfl
      | some p =>
        by_cases he : p = ""
        · simp [he]
        · simp [he, dput_dput]
    · simp [h]
  · trivial
  · intro t
    exact foldl_dappend_get _ _ _ _

/-- C3 counterexample: after inserting the chunk `"foo"` twice, the
postings list of the token `foo` has grown from one occurrence to two, so
`inverted_index` is *not* unchanged (refuting the claim as stated). -/
theorem c3_counterexample :
    dget ((addNode (fun s => s)
            ((addNode (fun s => s) emptyKG "foo" (mdMetaOf "d.md" "foo")).2)
            "foo" (mdMetaOf "d.md" "foo")).2).index "foo"
      ≠ dget ((addNode (fun s => s) emptyKG "foo" (mdMetaOf "d.md" "foo")).2).index "foo" := by
  decide

/-! ## Claim C1 -/

/-- C1 (amended): the score `bm25_search` assigns to a candidate node is
the sum, over the query's token occurrences, of the node's multiplicity in
that token's postings list times the per-token BM25 value computed from the
document's own term frequency — duplicate occurrences of the node id in a
postings list therefore **do** multiply that token's contribution. -/
theorem c1_postings_multiplicity_scales_score (g : KnowledgeGraph) (query : String)
    (excl : List String) (nid : String) :
    bm25ScoreOf g query excl nid =
      ((tokenize query).map (fun t =>
        let postings := (dget g.index t).getD []
        if postings.length = 0 then 0
        else if exclNode g excl nid then 0
        else (postings.count nid : ℝ) *
          nodeTokenScore g (avgdlOf g) (idfOf g.documents.length postings.length) t nid)).sum :=
  bm25ScoreOf_eq_sum g query excl nid

theorem kgC1_score_eval :
    bm25ScoreOf kgC1 "foo" [] "foo foo" =
      2 * nodeTokenScore kgC1 (avgdlOf kgC1) (idfOf 1 2) "foo" "foo foo" := by
  rw [bm25ScoreOf_eq_sum]
  rw [show tokenize "foo" = ["foo"] from by decide]
  simp only [List.map_cons, List.map_nil, List.sum_cons, List.sum_nil, add_zero]
  rw [show dget kgC1.index "foo" = some ["foo foo", "foo foo"] from by decide]
  rw [show kgC1.documents.length = 1 from by decide]
  norm_num [show exclNode kgC1 [] "foo foo" = false from by decide,
    show (["foo foo", "foo foo"] : List String).count "foo foo" = 2 from by decide]

theorem kgC1_spec_eval :
    specScoreOnceC1 kgC1 "foo" [] "foo foo" =
      nodeTokenScore kgC1 (avgdlOf kgC1) (idfOf 1 2) "foo" "foo foo" := by
  unfold specScoreOnceC1
  rw [show tokenize "foo" = ["foo"] from by decide]
  simp only [List.map_cons, List.map_nil, List.sum_cons, List.sum_nil, add_zero]
  rw [show dget kgC1.index "foo" = some ["foo foo", "foo foo"] from by decide]
  rw [show kgC1.documents.length = 1 from by decide]
  norm_num [show exclNode kgC1 [] "foo foo" = false from by decide,
    show "foo foo" ∈ (["foo foo", "foo foo"] : List String) from by decide]

theorem kgC1_token_score_neg :
    nodeTokenScore kgC1 (avgdlOf kgC1) (idfOf 1 2) "foo" "foo foo" < 0 := by
  have havg : avgdlOf kgC1 = 2 := by
    unfold avgdlOf
    rw [show kgC1.documents = ["foo foo"] from by decide]
    rw [show (List.map wsLen ["foo foo"]) = [2] from by decide]
    norm_num
  have hidf : idfOf 1 2 < 0 := by
    unfold idfOf
    rw [show (((1:ℕ):ℝ) - ((2:ℕ):ℝ) + 0.5) / (((2:ℕ):ℝ) + 0.5) + 1 = 4/5 by norm_num]
    exact Real.log_neg (by norm_num) (by norm_num)
  unfold nodeTokenScore
  rw [show dget kgC1.nodes "foo foo" =
      some { content := "foo foo", meta := mdMetaOf "d.md" "foo foo" } from by decide]
  simp only [Option.getD_some]
  rw [show countSub (pyLower "foo foo").toList "foo".toList = 2 from by decide,
      show wsLen "foo foo" = 2 from by decide, havg]
  push_cast
  apply div_neg_of_neg_of_pos
  · exact mul_neg_of_neg_of_pos hidf (by norm_num)
  · norm_num

/-- C1 counterexample: on the graph holding the single chunk `"foo foo"`
(whose postings list for `foo` holds the node twice) and the query `foo`,
the score `bm25_search` assigns is twice the once-per-token BM25 sum the
claim describes, so the two differ. -/
theorem c1_counterexample :
    bm25ScoreOf kgC1 "foo" [] "foo foo" ≠ specScoreOnceC1 kgC1 "foo" [] "foo foo" := by
  rw [kgC1_score_eval, kgC1_spec_eval]
  intro h
  have hz : nodeTokenScore kgC1 (avgdlOf kgC1) (idfOf 1 2) "foo" "foo foo" = 0 := by
    linarith
  exact absurd hz (ne_of_lt kgC1_token_score_neg)

/-! ## Claim C7 -/

theorem dget_dincrNat {K : Type} [DecidableEq K] (d : PyDict K ℕ) (k u : K) (n : ℕ) :
    dget (dincrNat d k n) u =
      if u = k then some ((dget d u).getD 0 + n) else dget d u := by
  induction d with
  | nil =>
    by_cases hu : u = k <;> simp [dincrNat, hu]
  | cons p rest ih =>
    obtain ⟨k', v'⟩ := p
    by_cases hk : k = k'
    · subst hk
      by_cases hu : u = k <;> simp [dincrNat, hu]
    · by_cases hu : u = k'
      · subst hu
        simp [dincrNat, hk, Ne.symm hk]
      · simp [dincrNat, hk, hu, ih]

theorem addDocDF_get :
    ∀ (ts seen : List String) (df : PyDict String ℕ) (t : String),
      dget (addDocDF df seen ts) t =
        if t ∈ seen ∨ t ∉ ts then dget df t else some ((dget df t).getD 0 + 1) := by
  intro ts
  induction ts with
  | nil => intro seen df t; simp [addDocDF]
  | cons u rest ih =>
    intro seen df t
    by_cases hu : u ∈ seen
    · simp only [addDocDF, hu, if_pos]
      rw [ih]
      by_cases ht : t = u
      · subst ht
        simp [hu]
      · simp [List.mem_cons, ht]
    · simp only [addDocDF, hu, Bool.false_eq_true, if_false]
      rw [ih]
      by_cases ht : t = u
      · subst ht
        rw [if_pos (by simp), dget_dincrNat, if_pos rfl]
        simp [hu]
      · rw [dget_dincrNat, if_neg ht]
        simp [List.mem_cons, ht]

theorem dfCount_cons (d : String × String) (rest : List (String × String)) (t : String) :
    dfCount (d :: rest) t =
      (if t ∈ tokenize d.2 then 1 else 0) + dfCount rest t := by
  by_cases h : t ∈ tokenize d.2 <;> simp [dfCount, List.filter_cons, h] <;> omega

theorem dfDictOf_get (docs : List (String × String)) (t : String) :
    dget (dfDictOf docs) t =
      if dfCount docs t = 0 then none else some (dfCount docs t) := by
  suffices h : ∀ (ds : List (String × String)) (df : PyDict String ℕ),
      dget (ds.foldl (fun df d => addDocDF df [] (tokenize d.2)) df) t =
        if dfCount ds t = 0 then dget df t
        else some ((dget df t).getD 0 + dfCount ds t) by
    have h2 := h docs []
    unfold dfDictOf
    rw [h2]
    by_cases hz : dfCount docs t = 0 <;> simp [hz]
  intro ds
  induction ds with
  | nil => intro df; simp [dfCount]
  | cons d rest ih =>
    intro df
    simp only [List.foldl_cons]
    rw [ih]
    by_cases hmem : t ∈ tokenize d.2
    · have ha : dget (addDocDF df [] (tokenize d.2)) t = some ((dget df t).getD 0 + 1) := by
        rw [addDocDF_get]
        simp [hmem]
      rw [ha, dfCount_cons, if_pos hmem]
      by_cases hz : dfCount rest t = 0
      · simp [hz]
      · rw [if_neg hz, if_neg (by omega)]
        simp only [Option.getD_some, Option.some_inj]
        omega
    · have ha : dget (addDocDF df [] (tokenize d.2)) t = dget df t := by
        rw [addDocDF_get]
        simp [hmem]
      rw [ha, dfCount_cons]
      simp [hmem]

theorem tokens_foldl_match_get (dfD : PyDict String ℕ) (key : String) (G : String → ℕ → ℝ) :
    ∀ (tokens : List String) (scores : PyDict String ℝ) (x : String),
      (dget (tokens.foldl (fun scores t =>
          match dget dfD t with
          | none => scores
          | some dfv => dincr scores key (G t dfv)) scores) x).getD 0 =
        (dget scores x).getD 0 +
          (if x = key then
            (tokens.map (fun t =>
              match dget dfD t with
              | none => (0 : ℝ)
              | some dfv => G t dfv)).sum
           else 0) := by
  intro tokens
  induction tokens with
  | nil => intro scores x; by_cases hx : x = key <;> simp [hx]
  | cons t rest ih =>
    intro scores x
    simp only [List.foldl_cons, List.map_cons, List.sum_cons]
    cases hdf : dget dfD t with
    | none =>
      rw [ih]
      by_cases hx : x = key <;> simp [hx]
    | some dfv =>
      rw [ih, dget_dincr]
      by_cases hx : x = key <;> simp [hx] <;> ring

theorem bm25Over_score_eq_sum (query : String) (docs : List (String × String)) (cid : String) :
    bm25OverScoreOf query docs cid =
      (docs.map (fun d =>
        if d.1 = cid then
          ((tokenize query).map (fun t =>
            match dget (dfDictOf docs) t with
            | none => (0 : ℝ)
            | some dfv => adhocTokScore docs d t dfv)).sum
        else 0)).sum := by
  unfold bm25OverScoreOf bm25OverDict
  suffices h : ∀ (ds : List (String × String)) (scores : PyDict String ℝ),
      (dget (ds.foldl (fun scores d =>
        (tokenize query).foldl (fun scores token =>
          match dget (dfDictOf docs) token with
          | none => scores
          | some dfv => dincr scores d.1 (adhocTokScore docs d token dfv)) scores) scores)
        cid).getD 0 =
        (dget scores cid).getD 0 +
          (ds.map (fun d =>
            if d.1 = cid then
              ((tokenize query).map (fun t =>
                match dget (dfDictOf docs) t with
                | none => (0 : ℝ)
                | some dfv => adhocTokScore docs d t dfv)).sum
            else 0)).sum by
    simpa using h docs []
  intro ds
  induction ds with
  | nil => intro scores; simp
  | cons d rest ih =>
    intro scores
    simp only [List.foldl_cons, List.map_cons, List.sum_cons]
    rw [ih, tokens_foldl_match_get (dfDictOf docs) d.1]
    by_cases hx : cid = d.1
    · rw [if_pos hx, if_pos hx.symm]
      ring
    · rw [if_neg hx, if_neg (fun hh => hx hh.symm)]
      ring

/-- C7 (amended): the ad-hoc scorer recomputes `df` (documents whose token
stream contains the token), `avgdl` (mean whitespace-split length) and `N`
from the candidate list and applies the index-backed `k1`/`b` formula, but
each candidate's `dl` is its **tokenized** length, and each term frequency
is the exact count among the **tokenized** content — not the
whitespace-split length and substring count the claim states. -/
theorem c7_adhoc_score_tokenized (query : String) (docs : List (String × String))
    (cid : String) (h : docs ≠ []) :
    bm25OverScoreOf query docs cid =
      (docs.map (fun d =>
        if d.1 = cid then specBm25OverAmendedC7 query docs d else 0)).sum := by
  rw [bm25Over_score_eq_sum]
  apply congrArg List.sum
  apply List.map_congr_left
  intro d _
  by_cases hd : d.1 = cid
  · rw [if_pos hd, if_pos hd]
    unfold specBm25OverAmendedC7
    apply congrArg List.sum
    apply List.map_congr_left
    intro t _
    rw [dfDictOf_get]
    by_cases hz : dfCount docs t = 0
    · simp [hz]
    · simp [hz]
  · rw [if_neg hd, if_neg hd]

/-- C7 witness: a one-candidate list on which the amended theorem's
hypothesis holds. -/
theorem c7_witness :
    docsC7 ≠ [] ∧
    bm25OverScoreOf "a" docsC7 "x" =
      (docsC7.map (fun d =>
        if d.1 = "x" then specBm25OverAmendedC7 "a" docsC7 d else 0)).sum := by
  refine ⟨by decide, ?_⟩
  exact c7_adhoc_score_tokenized "a" docsC7 "x" (by decide)

theorem docsC7_code_eval :
    bm25OverScoreOf "a" docsC7 "x" = adhocTokScore docsC7 ("x", "a.b c") "a" 1 := by
  rw [bm25Over_score_eq_sum]
  rw [show tokenize "a" = ["a"] from by decide]
  simp only [docsC7, List.map_cons, List.map_nil, List.sum_cons, List.sum_nil, add_zero]
  rw [show dget (dfDictOf [("x", "a.b c")]) "a" = some 1 from by decide]
  simp

theorem avgdlDocs_docsC7 : avgdlDocs docsC7 = 2 := by
  unfold avgdlDocs
  rw [show (List.map (fun d => wsLen d.2) docsC7) = [2] from by decide,
      show docsC7.length = 1 from by decide]
  norm_num

theorem adhocC7_eval :
    adhocTokScore docsC7 ("x", "a.b c") "a" 1 =
      idfOf 1 1 * ((1 : ℝ) * (1.5 + 1)) / (1 + 1.5 * (1 - 0.75 + 0.75 * 3 / 2)) := by
  unfold adhocTokScore
  rw [show tokenize "a.b c" = ["a", "b", "c"] from by decide, avgdlDocs_docsC7,
      show docsC7.length = 1 from by decide]
  norm_num [show (["a", "b", "c"] : List String).count "a" = 1 from by decide]

theorem specC7_eval :
    specBm25OverClaimC7 "a" docsC7 ("x", "a.b c") =
      idfOf 1 1 * ((1 : ℝ) * (1.5 + 1)) / (1 + 1.5 * (1 - 0.75 + 0.75 * 2 / 2)) := by
  unfold specBm25OverClaimC7
  rw [show tokenize "a" = ["a"] from by decide]
  simp only [List.map_cons, List.map_nil, List.sum_cons, List.sum_nil, add_zero]
  rw [show dfCount docsC7 "a" = 1 from by decide]
  rw [show countSub (pyLower "a.b c").toList "a".toList = 1 from by decide]
  rw [show wsLen "a.b c" = 2 from by decide]
  rw [avgdlDocs_docsC7, show docsC7.length = 1 from by decide]
  norm_num

theorem idfOf_1_1_pos : 0 < idfOf 1 1 := by
  unfold idfOf
  rw [show (((1:ℕ):ℝ) - ((1:ℕ):ℝ) + 0.5) / (((1:ℕ):ℝ) + 0.5) + 1 = 4/3 by norm_num]
  exact Real.log_pos (by norm_num)

/-- C7 counterexample: on the single candidate `("x", "a.b c")` and the
query `a`, the code's score uses `dl = 3` (tokenized length) while the
claim's formula uses `dl = 2` (whitespace-split length); with the positive
idf `log(4/3)` the two scores differ. -/
theorem c7_counterexample :
    bm25OverScoreOf "a" docsC7 "x" ≠ specBm25OverClaimC7 "a" docsC7 ("x", "a.b c") := by
  rw [docsC7_code_eval, adhocC7_eval, specC7_eval]
  have hpos : (0 : ℝ) < idfOf 1 1 * ((1 : ℝ) * (1.5 + 1)) :=
    mul_pos idfOf_1_1_pos (by norm_num)
  have hlt : idfOf 1 1 * ((1 : ℝ) * (1.5 + 1)) / (1 + 1.5 * (1 - 0.75 + 0.75 * 3 / 2)) <
      idfOf 1 1 * ((1 : ℝ) * (1.5 + 1)) / (1 + 1.5 * (1 - 0.75 + 0.75 * 2 / 2)) := by
    apply div_lt_div_of_pos_left hpos (by norm_num) (by norm_num)
  exact ne_of_lt hlt

/-! ## Claim C8 -/

theorem dfCount_eq_zero_of_nomatch (docs : List (String × String)) (t : String)
    (h : ∀ d ∈ docs, t ∉ tokenize d.2) : dfCount docs t = 0 := by
  unfold dfCount
  rw [List.length_eq_zero]
  rw [List.filter_eq_nil]
  intro d hd
  simpa using h d hd

/-- When no candidate's token stream contains any query token, the `scores`
dict of `_bm25_score` stays empty: every query token misses `df`. -/
theorem bm25OverDict_empty_of_nomatch (query : String) (docs : List (String × String))
    (h : ∀ t ∈ tokenize query, ∀ d ∈ docs, t ∉ tokenize d.2) :
    bm25OverDict query docs = [] := by
  unfold bm25OverDict
  have hdf : ∀ t ∈ tokenize query, dget (dfDictOf docs) t = none := by
    intro t ht
    rw [dfDictOf_get, if_pos (dfCount_eq_zero_of_nomatch docs t (h t ht))]
  have hinner : ∀ (d : String × String) (tokens : List String)
      (scores : PyDict String ℝ), (∀ t ∈ tokens, dget (dfDictOf docs) t = none) →
      tokens.foldl (fun scores token =>
        match dget (dfDictOf docs) token with
        | none => scores
        | some dfv => dincr scores d.1 (adhocTokScore docs d token dfv)) scores = scores := by
    intro d tokens
    induction tokens with
    | nil => intro scores _; rfl
    | cons t rest ih =>
      intro scores hts
      simp only [List.foldl_cons]
      rw [hts t (by simp)]
      exact ih scores (fun u hu => hts u (by simp [hu]))
  have houter : ∀ (ds : List (String × String)) (scores : PyDict String ℝ),
      ds.foldl (fun scores d =>
        (tokenize query).foldl (fun scores token =>
          match dget (dfDictOf docs) token with
          | none => scores
          | some dfv => dincr scores d.1 (adhocTokScore docs d token dfv)) scores)
        scores = scores := by
    intro ds
    induction ds with
    | nil => intro scores; rfl
    | cons d rest ih =>
      intro scores
      simp only [List.foldl_cons]
      rw [hinner d (tokenize query) scores hdf]
      exact ih scores
  exact houter docs []

/-- Under the claim's scenario the related-class stage fails with
`ValueError` from `max()` on the empty `class_scores.values()`, before any
division is attempted. -/
theorem findRelated_nomatch_valueError (g : KnowledgeGraph) (docNodes : List (String × ℝ))
    (query : String) (cands : List String)
    (hc : computeCands g docNodes = .ok cands) (hne : cands ≠ [])
    (hnm : ∀ t ∈ tokenize query, ∀ cid ∈ cands,
      t ∉ tokenize ((dget g.nodes cid).getD defaultNode).content) :
    findRelatedClasses g docNodes query = .error .valueErrorMaxEmpty := by
  unfold findRelatedClasses
  rw [hc]
  cases cands with
  | nil => exact absurd rfl hne
  | cons c cs =>
    have hempty : bm25OverDict query
        ((c :: cs).map (fun cid => (cid, ((dget g.nodes cid).getD defaultNode).content)))
        = [] := by
      apply bm25OverDict_empty_of_nomatch
      intro t ht d hd
      obtain ⟨cid, hcid, rfl⟩ := List.mem_map.mp hd
      exact hnm t ht cid hcid
    show Except.bind (Except.ok (c :: cs)) _ = _
    simp only [Except.bind]
    rw [hempty]

/-- C8 (amended): for every graph and query where stage 2 produces a
nonempty class-candidate set but no candidate's content contains any query
token, `_find_related_classes` raises a `ValueError` (`max()` over the
empty `class_scores`) instead of returning a context — the all-zero guard
the spec asks for is indeed missing, but the crash is `ValueError`, not a
divide-by-zero. -/
theorem c8_nomatch_raises_valueerror (g : KnowledgeGraph) (docNodes : List (String × ℝ))
    (query : String) (cands : List String)
    (hc : computeCands g docNodes = .ok cands) (hne : cands ≠ [])
    (hnm : ∀ t ∈ tokenize query, ∀ cid ∈ cands,
      t ∉ tokenize ((dget g.nodes cid).getD defaultNode).content) :
    findRelatedClasses g docNodes query = .error .valueErrorMaxEmpty :=
  findRelated_nomatch_valueError g docNodes query cands hc hne hnm

/-- C8 witness: a concrete graph in the claim's scenario (`d1` linked to
class `c1` with content `"zzz"`, query `"hello"`). -/
theorem c8_witness :
    computeCands kgC8 [("d1", (1 : ℝ))] = .ok ["c1"] ∧
    (["c1"] : List String) ≠ [] ∧
    (∀ t ∈ tokenize "hello", ∀ cid ∈ (["c1"] : List String),
      t ∉ tokenize ((dget kgC8.nodes cid).getD defaultNode).content) ∧
    findRelatedClasses kgC8 [("d1", (1 : ℝ))] "hello" = .error .valueErrorMaxEmpty := by
  have hnm : ∀ t ∈ tokenize "hello", ∀ cid ∈ (["c1"] : List String),
      t ∉ tokenize ((dget kgC8.nodes cid).getD defaultNode).content := by decide
  exact ⟨rfl, by simp, hnm,
    c8_nomatch_raises_valueerror kgC8 [("d1", (1 : ℝ))] "hello" ["c1"] rfl (by simp) hnm⟩

/-- C8 counterexample: the claim as stated — that the scenario raises a
divide-by-zero — is false: the scenario always raises `ValueError` from
`max()` on an empty sequence, never `ZeroDivisionError`. -/
theorem c8_counterexample : ¬ claimC8Stated := by
  rintro ⟨g, docNodes, query, cands, h1, h2, h3, h4⟩
  rw [findRelated_nomatch_valueError g docNodes query cands h1 h2 h3] at h4
  simp at h4

/-! ## Claim C9 -/

/-- C9: for a group of retrieved markdown doc nodes of one file (each a
chunk of the group's `full_content`, so the group is nonempty, the file
re-chunks to at least one chunk, and the selection is no larger than the
chunk count), `file_coverage = 0` promotes the group to the single
full-file entry, and any `file_coverage > 1` emits the individual section
chunks instead. -/
theorem c9_file_coverage_extremes (path fc : String) (nodes : List Node) (n0 : Node)
    (h0 : nodes.head? = some n0) (hfc : n0.meta.full_content = some fc)
    (htot : 0 < (chunkMarkdown fc path 2).length)
    (hsel : nodes.length ≤ (chunkMarkdown fc path 2).length) :
    promoteGroup 0 path nodes = [FDoc.full fc path] ∧
    ∀ cov : ℝ, 1 < cov → promoteGroup cov path nodes = nodes.map FDoc.sect := by
  cases nodes with
  | nil => simp at h0
  | cons n rest =>
    have hn : n = n0 := by simpa using h0
    subst hn
    constructor
    · simp only [promoteGroup, hfc]
      rw [if_neg (by omega), if_pos]
      exact div_nonneg (Nat.cast_nonneg _) (Nat.cast_nonneg _)
    · intro cov hcov
      simp only [promoteGroup, hfc]
      rw [if_neg (by omega), if_neg]
      intro hle
      have hone : ((n :: rest).length : ℝ) / ((chunkMarkdown fc path 2).length : ℝ) ≤ 1 := by
        rw [div_le_one (by exact_mod_cast htot)]
        exact_mod_cast hsel
      linarith

/-- C9 witness: a two-section file with one retrieved section. -/
theorem c9_witness :
    ([nodeC9].head? = some nodeC9) ∧
    nodeC9.meta.full_content = some fcC9 ∧
    0 < (chunkMarkdown fcC9 "p.md" 2).length ∧
    [nodeC9].length ≤ (chunkMarkdown fcC9 "p.md" 2).length ∧
    promoteGroup 0 "p.md" [nodeC9] = [FDoc.full fcC9 "p.md"] ∧
    promoteGroup 2 "p.md" [nodeC9] = [nodeC9].map FDoc.sect := by
  have h := c9_file_coverage_extremes "p.md" fcC9 [nodeC9] nodeC9 rfl rfl
    (by decide) (by decide)
  exact ⟨rfl, rfl, by decide, by decide, h.1, h.2 2 (by norm_num)⟩

/-! ## Claim C6 -/

theorem beBytes_length (k n : ℕ) : (beBytes k n).length = k := by
  induction k generalizing n with
  | zero => rfl
  | succ k ih => simp [beBytes, ih]

theorem deBE_append_singleton (xs : List ℕ) (y : ℕ) :
    deBE (xs ++ [y]) = deBE xs * 256 + y := by
  unfold deBE
  rw [List.foldl_append]
  rfl

theorem deBE_beBytes (k n : ℕ) : deBE (beBytes k n) = n % 256 ^ k := by
  induction k generalizing n with
  | zero => simp [beBytes, deBE, Nat.mod_one]
  | succ k ih =>
    show deBE (beBytes k (n / 256) ++ [n % 256]) = n % 256 ^ (k + 1)
    rw [deBE_append_singleton, ih, pow_succ', Nat.mod_mul]
    ring

theorem magic_take (r : List ℕ) : (magicBytes ++ r).take 6 = magicBytes := rfl

theorem magic_drop (r : List ℕ) : (magicBytes ++ r).drop 6 = r := rfl

theorem be4_take (r : List ℕ) : (beBytes 4 2 ++ r).take 4 = beBytes 4 2 := rfl

theorem magic_be4_drop (r : List ℕ) : (magicBytes ++ (beBytes 4 2 ++ r)).drop 10 = r := rfl

theorem magic_be4_drop18 (r : List ℕ) :
    (magicBytes ++ (beBytes 4 2 ++ r)).drop 18 = r.drop 8 := rfl

/-- C6: `persist` writes the magic `C4AIV2` at offset 0, the big-endian u32
version 2 at offset 6, the big-endian u64 compressed length at offset 10,
then the compressed body; `load` rejects a wrong magic with `BadFormat`
(`ValueError("Invalid cache format")`), rejects a stored version ≠ 2 with
`VersionMismatch`, and on a file `persist` wrote — given the
decompressor/unpacker round-trip contracts at that body — succeeds and
reconstructs the graph state. -/
theorem c6_codec_layout_and_load (pack : PState → List ℕ) (comp : List ℕ → List ℕ)
    (unpack : List ℕ → Option PState) (decomp : List ℕ → Option (List ℕ))
    (dg : DocGraphState) (f : List ℕ) :
    (persistBytes pack comp dg =
       magicBytes ++ beBytes 4 2 ++ beBytes 8 (comp (pack (stateOf dg))).length
         ++ comp (pack (stateOf dg)) ∧
     (persistBytes pack comp dg).take 6 = magicBytes ∧
     ((persistBytes pack comp dg).drop 6).take 4 = beBytes 4 2 ∧
     ((persistBytes pack comp dg).drop 10).take 8 =
       beBytes 8 (comp (pack (stateOf dg))).length) ∧
    (f.take 6 ≠ magicBytes → loadBytes unpack decomp f = .error .badFormat) ∧
    (f.take 6 = magicBytes → ((f.drop 6).take 4).length = 4 →
      deBE ((f.drop 6).take 4) ≠ 2 →
      loadBytes unpack decomp f = .error .versionMismatch) ∧
    (decomp (comp (pack (stateOf dg))) = some (pack (stateOf dg)) →
     unpack (pack (stateOf dg)) = some (stateOf dg) →
     (comp (pack (stateOf dg))).length < 2 ^ 64 →
     loadBytes unpack decomp (persistBytes pack comp dg) = .ok (reconstruct (stateOf dg)) ∧
     (reconstruct (stateOf dg)).graph = (stateOf dg).graph) := by
  have hshape : persistBytes pack comp dg =
      magicBytes ++ (beBytes 4 2 ++ (beBytes 8 (comp (pack (stateOf dg))).length
        ++ comp (pack (stateOf dg)))) := by
    unfold persistBytes
    simp [List.append_assoc]
  refine ⟨⟨?_, ?_, ?_, ?_⟩, ?_, ?_, ?_⟩
  · unfold persistBytes
    simp [List.append_assoc]
  · rw [hshape, magic_take]
  · rw [hshape, magic_drop, be4_take]
  · rw [hshape, magic_be4_drop]
    exact List.take_left' (beBytes_length 8 _)
  · intro hbad
    unfold loadBytes
    rw [if_pos hbad]
  · intro hm hl hv
    unfold loadBytes
    rw [if_neg (fun hc => hc hm), if_neg (fun hc => hc hl), if_pos hv]
  · intro hdec hunp hlen
    refine ⟨?_, rfl⟩
    have hsize : deBE (beBytes 8 (comp (pack (stateOf dg))).length) =
        (comp (pack (stateOf dg))).length := by
      rw [deBE_beBytes]
      have h64 : (256 : ℕ) ^ 8 = 2 ^ 64 := by norm_num
      rw [h64]
      exact Nat.mod_eq_of_lt hlen
    unfold loadBytes
    rw [hshape, magic_take, magic_drop, be4_take, magic_be4_drop, magic_be4_drop18]
    rw [List.take_left' (beBytes_length 8 _), List.drop_left' (beBytes_length 8 _)]
    rw [if_neg (by simp)]
    rw [if_neg (by rw [beBytes_length]; simp)]
    rw [if_neg (by rw [deBE_beBytes]; simp)]
    rw [if_neg (by rw [beBytes_length]; simp)]
    rw [hsize, List.take_length, hdec]
    simp only [hunp]

/-- C6 witness: a junk file is rejected as `BadFormat`, a file with magic
but version 7 is rejected as `VersionMismatch`, and a persisted graph loads
back, with a trivial one-byte codec standing in for zstd/msgpack. -/
theorem c6_witness :
    (([0, 0, 0, 0, 0, 0] : List ℕ).take 6 ≠ magicBytes) ∧
    loadBytes (fun _ => some (stateOf dgC2)) (fun b => some b) [0, 0, 0, 0, 0, 0]
      = .error .badFormat ∧
    deBE (((magicBytes ++ [0, 0, 0, 7]).drop 6).take 4) ≠ 2 ∧
    loadBytes (fun _ => some (stateOf dgC2)) (fun b => some b) (magicBytes ++ [0, 0, 0, 7])
      = .error .versionMismatch ∧
    loadBytes (fun _ => some (stateOf dgC2)) (fun b => some b)
        (persistBytes (fun _ => ([9] : List ℕ)) (fun b => b) dgC2)
      = .ok (reconstruct (stateOf dgC2)) := by
  have h0 := c6_codec_layout_and_load (fun _ => ([9] : List ℕ)) (fun b => b)
    (fun _ => some (stateOf dgC2)) (fun b => some b) dgC2 [0, 0, 0, 0, 0, 0]
  have h1 := c6_codec_layout_and_load (fun _ => ([9] : List ℕ)) (fun b => b)
    (fun _ => some (stateOf dgC2)) (fun b => some b) dgC2 (magicBytes ++ [0, 0, 0, 7])
  refine ⟨by decide, h0.2.1 (by decide), by decide,
    h1.2.2.1 (by decide) (by decide) (by decide), ?_⟩
  exact (h0.2.2.2 rfl rfl (by decide)).1

/-! ## Claim C2 -/

/-- C2: persisting and loading breaks `query`. msgpack serializes the
`defaultdict` adjacency as a plain dict, so on the loaded graph
`_find_related_classes` evaluates `self.graph.graph[node_id]` on a plain
dict and raises `KeyError` for any retrieved doc node without cross-edges,
while the same query on the original graph returns a rendered context: the
round-trip identity of the claim fails. -/
theorem c2_loaded_graph_query_raises_keyerror :
    loadBytes (fun _ => some (stateOf dgC2)) (fun b => some b)
        (persistBytes (fun _ => ([] : List ℕ)) (fun b => b) dgC2)
      = .ok (reconstruct (stateOf dgC2)) ∧
    (reconstruct (stateOf dgC2)).graph = { kgC2 with adjPlain := true } ∧
    queryDG (reconstruct (stateOf dgC2)).graph "hello" 10 3 (3 / 5 : ℝ)
      = .error .keyError ∧
    (∃ s, queryDG dgC2.graph "hello" 10 3 (3 / 5 : ℝ) = .ok s) := by
  exact ⟨rfl, rfl, rfl, ⟨_, rfl⟩⟩

end Doc2Talk
